import Mathlib

/-!
Verification of `long-audio-transcribe` (`app.py`): a Flask service that
splits a long audio file into fixed-duration chunks, sends each chunk to an
external Whisper endpoint, and reassembles the per-chunk transcripts.

Shallow embedding conventions:
* Strings are lists of Unicode codepoints (`Str := List Nat`); Python string
  operations (`strip`, `lower`, `int()`, extension checks) are modelled on
  codepoint lists.  Relevant codepoints: 46 = dot, 32 = space.
* A decoded audio file is represented by its length in milliseconds
  (`len(audio)` in pydub is the millisecond length).
* External effects are oracles passed as parameters: the decode outcome of
  `AudioSegment.from_file` (`Option Nat`, `none` = exception), a per-segment
  export-failure flag for `chunk.export`, and the HTTP outcome of every
  per-segment transcription request.
* Temporary segment artifacts are identified by their creation index; each
  run tracks which artifacts are still on disk when the handler returns.
-/

abbrev Str := List Nat

/-- Python `str.strip` whitespace (ASCII part): space, tab, LF, CR, VT, FF. -/
def pySpace (c : Nat) : Bool :=
  c == 32 || c == 9 || c == 10 || c == 13 || c == 11 || c == 12

/-- Python `str.strip()`: drop leading whitespace, then trailing whitespace. -/
def pyStrip (s : Str) : Str :=
  (((s.dropWhile pySpace).reverse).dropWhile pySpace).reverse

/-- Python `str.lower()` on one codepoint (ASCII range, which is all the
extension allow-list needs): uppercase letters shift by 32. -/
def pyLower (c : Nat) : Nat :=
  if 65 ≤ c && c ≤ 90 then c + 32 else c

/-- ASCII decimal digit test. -/
def pyDigit (c : Nat) : Bool := 48 ≤ c && c ≤ 57

def digitsToNat (ds : Str) : Nat :=
  ds.foldl (fun a c => 10 * a + (c - 48)) 0

/-- Models the Python built-in `int()` applied to a string: surrounding
whitespace is stripped, an optional single sign is allowed, and the rest must
be one or more decimal digits (digit-grouping underscores are not used by any
caller and are omitted).  `none` models the `ValueError` raised otherwise. -/
def pyInt (s : Str) : Option Int :=
  let t := pyStrip s
  match t with
  | 45 :: ds =>   -- '-'
      if ds ≠ [] ∧ ds.all pyDigit then some (-(digitsToNat ds : Int)) else none
  | 43 :: ds =>   -- '+'
      if ds ≠ [] ∧ ds.all pyDigit then some ((digitsToNat ds : Int)) else none
  | ds =>
      if ds ≠ [] ∧ ds.all pyDigit then some ((digitsToNat ds : Int)) else none

/-- `ALLOWED_EXTENSIONS = {wav, mp3, m4a, flac, ogg}` (app.py line 20),
as codepoint lists. -/
def allowedExtensions : List Str :=
  [[119, 97, 118],        -- wav
   [109, 112, 51],        -- mp3
   [109, 52, 97],         -- m4a
   [102, 108, 97, 99],    -- flac
   [111, 103, 103]]       -- ogg

/-- `filename.rsplit('.', 1)[1]`: the codepoints after the last dot.  Only
used under the guard that a dot is present, matching the short-circuit
`'.' in filename and ...` in `allowed_file`. -/
def lastExt (f : Str) : Str :=
  ((f.reverse).takeWhile (fun c => c != 46)).reverse

/-- `allowed_file` (app.py lines 31-35): the name contains a dot and the
lowercased part after the last dot is in the allow-list.  The config lookup
`app.config.get('ALLOWED_EXTENSIONS', ALLOWED_EXTENSIONS)` resolves to the
default set, which equals the set every bundled config class defines. -/
def allowed_file (f : Str) : Bool :=
  f.contains 46 && allowedExtensions.contains ((lastExt f).map pyLower)

/-- Number of iterations of `range(0, stop, step)` as called in `split_audio`
(start is always 0, `stop = len(audio) ≥ 0`).  `none` models the `ValueError`
raised by `range` on a zero step; a negative step yields no iterations since
the start 0 is never greater than the non-negative stop. -/
def pyRangeLen (stop : Nat) (step : Int) : Option Nat :=
  if step = 0 then none
  else if step < 0 then some 0
  else some ((stop + step.toNat - 1) / step.toNat)

/-- One temporary audio segment: artifact id (creation index), millisecond
offset of its window, and millisecond length of its actual content. -/
structure Segment where
  fileId : Nat
  startMs : Nat
  lenMs : Nat
deriving DecidableEq

/-- Outcome of `split_audio`: the temp artifacts created on disk (in creation
order) and, when no exception escaped, the returned segment list. -/
structure SplitOutcome where
  written : List Nat
  result : Option (List Segment)
deriving DecidableEq

/-- Loop body of `split_audio` (app.py lines 58-73), iterating over the
segment indices `j` (offset `i = j * step` in the Python loop).  The slice
`audio[i:i + step]` has length `min step (len - i)`.
`tempfile.NamedTemporaryFile(delete=False)` creates artifact `j` on disk
before `chunk.export` runs, so a failing export still leaves artifact `j`
behind; the exception then propagates out of `split_audio` (lines 77-79 log
and re-raise) without any cleanup of the artifacts written so far. -/
def splitGo (lenMs step : Nat) (exportFail : Nat → Bool) : List Nat → SplitOutcome
  | [] => ⟨[], some []⟩
  | j :: rest =>
      if exportFail j then ⟨[j], none⟩
      else
        let o := splitGo lenMs step exportFail rest
        ⟨j :: o.written,
         o.result.map (fun segs => ⟨j, j * step, min step (lenMs - j * step)⟩ :: segs)⟩

/-- `split_audio` (app.py lines 37-79).  `decode` is the outcome of
`AudioSegment.from_file` (`none` = DecodeError, raised before any artifact is
written); then the loop `for i in range(0, len(audio), chunk_duration * 1000)`
runs over the computed iteration count. -/
def split_audio (decode : Option Nat) (exportFail : Nat → Bool) (d : Int) :
    SplitOutcome :=
  match decode with
  | none => ⟨[], none⟩
  | some lenMs =>
      match pyRangeLen lenMs (d * 1000) with
      | none => ⟨[], none⟩
      | some count => splitGo lenMs (d * 1000).toNat exportFail (List.range count)

/-- Outcome of the per-segment HTTP transcription request. -/
inductive HttpOutcome where
  /-- The endpoint answered with this status; the payload describes the body
  (a JSON object whose optional member is the `text` field, or a non-JSON
  body on which `response.json()` raises). -/
  | response (status : Nat) (textField : Option Str) (jsonOk : Bool)
  /-- `requests.exceptions.Timeout`. -/
  | timeout
  /-- Any other network-level failure (connection refused, DNS, ...). -/
  | netError
deriving DecidableEq

/-- `transcribe_chunk` (app.py lines 81-113): on HTTP 200 parse the JSON and
return `result.get('text', '')`; on any other status return `""`; any
exception (timeout, network failure, JSON parse failure) is caught by the
blanket handler, which also returns `""`. -/
def transcribe_chunk (o : HttpOutcome) : Str :=
  match o with
  | .response status textField jsonOk =>
      if status = 200 then
        if jsonOk then (textField.getD []) else []
      else []
  | .timeout => []
  | .netError => []

/-- One entry of the `segments` list in the JSON response
(app.py lines 181-186). -/
structure SegRes where
  segment_id : Nat
  text : Str
  start_time : Int
  end_time : Int
deriving DecidableEq

/-- The transcription loop (app.py lines 177-188): for segment index `i`,
record `segment_id = i + 1`, the text returned by `transcribe_chunk`, and
`start_time = i * chunk_duration`, `end_time = (i + 1) * chunk_duration`. -/
def buildResults (http : Nat → HttpOutcome) (d : Int) (n : Nat) : List SegRes :=
  (List.range n).map (fun i =>
    { segment_id := i + 1
      text := transcribe_chunk (http i)
      start_time := (i : Int) * d
      end_time := ((i : Int) + 1) * d })

/-- The `full_text += text + " "` accumulation (app.py lines 175, 188). -/
def fullTextRaw (rs : List SegRes) : Str :=
  rs.foldl (fun acc r => acc ++ r.text ++ [32]) []

/-- The success JSON body (app.py lines 200-207).  The `duration` field is
serialized as `len(audio) / 1000` seconds; the model keeps the exact
millisecond count. -/
structure SuccessBody where
  text : Str
  segments : List SegRes
  durationMs : Nat
  chunk_count : Nat
  chunk_duration : Int
deriving DecidableEq

/-- What one request leaves behind: HTTP status, success body when the run
succeeded, segment artifacts still on disk, and whether the staged source
file is still on disk. -/
structure RunOutcome where
  status : Nat
  body : Option SuccessBody
  leakedSegments : List Nat
  sourceRemains : Bool
deriving DecidableEq

/-- `AudioSegment.from_file` on a path: raises (`none`) when the file is no
longer present, otherwise behaves as the decode oracle. -/
def from_file (present : Bool) (decode : Option Nat) : Option Nat :=
  if present then decode else none

/-- The pipeline part of `transcribe_audio` (app.py lines 169-219), after the
upload has been staged to `file_path`.
* If `split_audio` raises, the handler's `except` runs, but `temp_files` was
  never bound in the handler's scope, so `'temp_files' in locals()` is false
  and the artifacts written inside `split_audio` are not cleaned up; the
  staged source is unlinked and a 500 error is returned (lines 209-219).
* Otherwise each chunk is transcribed (`transcribe_chunk` never raises), the
  temp files are deleted (line 191), the staged source is re-decoded for the
  total duration (line 194, the file is still present), the source is
  unlinked (line 198) and the success body is returned; if the re-decode
  raises, the `except` path deletes the already-deleted temp files (a no-op)
  and the staged source, and returns 500. -/
def runUpload (decode decode2 : Option Nat) (exportFail : Nat → Bool)
    (http : Nat → HttpOutcome) (d : Int) : RunOutcome :=
  let so := split_audio decode exportFail d
  match so.result with
  | none =>
      { status := 500, body := none, leakedSegments := so.written,
        sourceRemains := false }
  | some segs =>
      let results := buildResults http d segs.length
      let text := pyStrip (fullTextRaw results)
      -- line 191: cleanup_temp_files(temp_files); line 194: from_file on the
      -- still-present source
      match from_file true decode2 with
      | none =>
          { status := 500, body := none, leakedSegments := [],
            sourceRemains := false }
      | some len2 =>
          { status := 200,
            body := some { text := text, segments := results,
                           durationMs := len2, chunk_count := results.length,
                           chunk_duration := d },
            leakedSegments := [], sourceRemains := false }

/-- The pipeline part of `transcribe_audio_url` (app.py lines 261-306), after
the download has been staged to `temp_file.name`.
* The failure branch of `split_audio` behaves as in `runUpload` (here line
  303 unlinks the still-present source before returning 500).
* On the success path the code deletes the temp segment files (line 283) and
  then unlinks the staged source (line 284) BEFORE calling
  `AudioSegment.from_file(temp_file.name)` (line 287); the file is gone, so
  `from_file` raises, the inner `except` runs `os.unlink(temp_file.name)`
  (line 303) on the missing file which raises `FileNotFoundError`, and the
  outer handler (lines 308-310) returns 500.  The success-response code
  (lines 290-297) is therefore unreachable. -/
def runUrl (decode decode2 : Option Nat) (exportFail : Nat → Bool)
    (http : Nat → HttpOutcome) (d : Int) : RunOutcome :=
  let so := split_audio decode exportFail d
  match so.result with
  | none =>
      { status := 500, body := none, leakedSegments := so.written,
        sourceRemains := false }
  | some segs =>
      let results := buildResults http d segs.length
      let text := pyStrip (fullTextRaw results)
      -- line 283: cleanup_temp_files; line 284: os.unlink(temp_file.name)
      let sourcePresent := false
      match from_file sourcePresent decode2 with
      | none =>
          { status := 500, body := none, leakedSegments := [],
            sourceRemains := false }
      | some len2 =>
          { status := 200,
            body := some { text := text, segments := results,
                           durationMs := len2, chunk_count := results.length,
                           chunk_duration := d },
            leakedSegments := [], sourceRemains := false }

/-- The parts of an upload request that the `transcribe_audio` validation
reads: whether `'file' in request.files`, the file name, and the raw
`chunk_duration` form value (`none` when absent, in which case the integer
default 30 is used). -/
structure UploadRequest where
  hasFile : Bool
  filename : Str
  chunkRaw : Option Str
deriving DecidableEq

/-- `transcribe_audio` (app.py lines 133-223): boundary validation followed
by the pipeline.  Missing file, empty file name and disallowed extension
return 400 (lines 149-157); `int(request.form.get('chunk_duration', 30))`
(line 160) raises `ValueError` on a malformed value, which only the outer
blanket handler catches, returning 500 (lines 221-223). -/
def transcribe_audio_route (req : UploadRequest) (decode decode2 : Option Nat)
    (exportFail : Nat → Bool) (http : Nat → HttpOutcome) :
    Nat × Option SuccessBody :=
  if req.hasFile = false then (400, none)
  else if req.filename = [] then (400, none)
  else if allowed_file req.filename = false then (400, none)
  else
    match (match req.chunkRaw with
           | none => some (30 : Int)
           | some s => pyInt s) with
    | none => (500, none)
    | some d =>
        let r := runUpload decode decode2 exportFail http d
        (r.status, r.body)

/-- Spec-side comparator for the aggregation claim, following the spec's
words: "segment texts joined with a single space" (one separator between
consecutive texts). -/
def joinSpace : List Str → Str
  | [] => []
  | [t] => t
  | t :: ts => t ++ 32 :: joinSpace ts

/-- The parts of a URL request that the `transcribe_audio_url` validation
reads: whether `request.get_json()` produced a truthy object containing
`'audio_url'`, and the raw `chunk_duration` value. -/
structure UrlRequest where
  hasUrl : Bool
  chunkRaw : Option Str
deriving DecidableEq

/-- `transcribe_audio_url` (app.py lines 225-310): a missing or url-less JSON
body returns 400 (lines 237-238); a malformed `chunk_duration` (line 241)
raises `ValueError`, caught only by the outer handler, returning 500; then
download, staging and the pipeline. -/
def transcribe_url_route (req : UrlRequest) (decode decode2 : Option Nat)
    (exportFail : Nat → Bool) (http : Nat → HttpOutcome) :
    Nat × Option SuccessBody :=
  if req.hasUrl = false then (400, none)
  else
    match (match req.chunkRaw with
           | none => some (30 : Int)
           | some s => pyInt s) with
    | none => (500, none)
    | some d =>
        let r := runUrl decode decode2 exportFail http d
        (r.status, r.body)

/-- An HTTP oracle on which every transcription request succeeds with body
`{"text": "hi"}` (codepoints 104, 105). -/
def httpHi : Nat → HttpOutcome := fun _ => .response 200 (some [104, 105]) true

/-- An HTTP oracle on which every transcription request times out. -/
def httpDown : Nat → HttpOutcome := fun _ => .timeout

/-- An export oracle under which every `chunk.export` succeeds. -/
def exportOk : Nat → Bool := fun _ => false

/-- An HTTP oracle that fails (times out) exactly on segment index 1 and
returns `{"text": "hi"}` everywhere else. -/
def httpFailAt1 : Nat → HttpOutcome :=
  fun j => if j == 1 then .timeout else .response 200 (some [104, 105]) true

/-- An upload request with file name `a.wav` and form value
`chunk_duration = "abc"`, which `int()` cannot convert. -/
def badChunkReq : UploadRequest :=
  { hasFile := true, filename := [97, 46, 119, 97, 118],
    chunkRaw := some [97, 98, 99] }

/-- The success body produced by a 95000 ms upload with chunk duration 30 on
the all-success oracle `httpHi` ("hi hi hi hi" with four segments). -/
def bodyHi : SuccessBody :=
  { text := [104, 105, 32, 104, 105, 32, 104, 105, 32, 104, 105],
    segments := [⟨1, [104, 105], 0, 30⟩, ⟨2, [104, 105], 30, 60⟩,
                 ⟨3, [104, 105], 60, 90⟩, ⟨4, [104, 105], 90, 120⟩],
    durationMs := 95000, chunk_count := 4, chunk_duration := 30 }

/- ======================================================================
   Helper lemmas
   ====================================================================== -/

theorem splitGo_noFail (lenMs step : Nat) (ef : Nat → Bool)
    (h : ∀ j, ef j = false) (l : List Nat) :
    splitGo lenMs step ef l =
      ⟨l, some (l.map (fun j => ⟨j, j * step, min step (lenMs - j * step)⟩))⟩ := by
  induction l with
  | nil => rfl
  | cons j rest ih => simp [splitGo, h j, ih]

theorem split_audio_posNat (lenMs d : Nat) (hd : 0 < d) (ef : Nat → Bool)
    (hef : ∀ j, ef j = false) :
    split_audio (some lenMs) ef (d : Int) =
      ⟨List.range ((lenMs + d * 1000 - 1) / (d * 1000)),
       some ((List.range ((lenMs + d * 1000 - 1) / (d * 1000))).map
         (fun j => ⟨j, j * (d * 1000), min (d * 1000) (lenMs - j * (d * 1000))⟩))⟩ := by
  have h1000 : ((d : Int) * 1000) = ((d * 1000 : Nat) : Int) := by push_cast; ring
  have hpos : 0 < d * 1000 := by positivity
  simp only [split_audio, pyRangeLen, h1000, Int.toNat_natCast]
  rw [if_neg (show ¬ ((d * 1000 : Nat) : Int) = 0 by exact_mod_cast hpos.ne'),
      if_neg (show ¬ ((d * 1000 : Nat) : Int) < 0 from Int.not_lt.mpr (Int.natCast_nonneg _))]
  exact splitGo_noFail lenMs (d * 1000) ef hef (List.range _)

theorem countBounds (lenMs M : Nat) (hM : 0 < M) :
    lenMs ≤ M * ((lenMs + M - 1) / M) ∧ M * ((lenMs + M - 1) / M) < lenMs + M := by
  have key := Nat.div_add_mod (lenMs + M - 1) M
  have hr : (lenMs + M - 1) % M < M := Nat.mod_lt _ hM
  generalize hP : M * ((lenMs + M - 1) / M) = P at key ⊢
  generalize hR : (lenMs + M - 1) % M = R at key hr
  omega

theorem ceil_eq_count (lenMs M : Nat) (hM : 0 < M) :
    ⌈(lenMs : ℚ) / (M : ℚ)⌉ = (((lenMs + M - 1) / M : Nat) : ℤ) := by
  obtain ⟨h1, h2⟩ := countBounds lenMs M hM
  generalize hQ : (lenMs + M - 1) / M = Q at h1 h2 ⊢
  have hMQ : (0 : ℚ) < (M : ℚ) := by exact_mod_cast hM
  have h1q : (lenMs : ℚ) ≤ (M : ℚ) * (Q : ℚ) := by exact_mod_cast h1
  have h2q : (M : ℚ) * (Q : ℚ) < (lenMs : ℚ) + (M : ℚ) := by exact_mod_cast h2
  rw [Int.ceil_eq_iff]
  constructor
  · rw [lt_div_iff₀ hMQ]
    push_cast
    nlinarith
  · rw [div_le_iff₀ hMQ]
    push_cast
    nlinarith

theorem window_full (lenMs M q i : Nat) (hM : 0 < M)
    (hq : q = (lenMs + M - 1) / M) (hi : i + 1 < q) :
    min M (lenMs - i * M) = M := by
  obtain ⟨h1, h2⟩ := countBounds lenMs M hM
  rw [← hq] at h1 h2
  have hle : i + 1 + 1 ≤ q := by omega
  have h3 : M * (i + 1 + 1) ≤ M * q := Nat.mul_le_mul_left M hle
  have e1 : M * (i + 1 + 1) = i * M + M + M := by ring
  rw [e1] at h3
  generalize hA : M * q = A at h2 h3
  generalize hC : i * M = C at h3 ⊢
  omega

theorem pySpace_32 : pySpace 32 = true := rfl

theorem pyStrip_append_space (s : Str) : pyStrip (s ++ [32]) = pyStrip s := by
  unfold pyStrip
  rw [List.dropWhile_append]
  by_cases h : (s.dropWhile pySpace).isEmpty
  · rw [if_pos h]
    have hempty : s.dropWhile pySpace = [] := by simpa [List.isEmpty_iff] using h
    rw [hempty]
    rfl
  · rw [if_neg h]
    rw [List.reverse_append]
    simp only [List.reverse_cons, List.reverse_nil, List.nil_append,
      List.singleton_append]
    rw [List.dropWhile_cons]
    simp [pySpace]

theorem fullTextRaw_eq_join (rs : List SegRes) :
    fullTextRaw rs = (rs.map (fun r => r.text ++ [32])).flatten := by
  have h : ∀ (l : List SegRes) (a : Str),
      l.foldl (fun acc r => acc ++ r.text ++ [32]) a
        = a ++ (l.map (fun r => r.text ++ [32])).flatten := by
    intro l
    induction l with
    | nil => simp
    | cons r rest ih =>
      intro a
      rw [List.foldl_cons, ih, List.map_cons, List.flatten_cons]
      simp [List.append_assoc]
  simpa [fullTextRaw] using h rs []

theorem join_map_space (ts : List Str) (h : ts ≠ []) :
    (ts.map (fun t => t ++ [32])).flatten = joinSpace ts ++ [32] := by
  induction ts with
  | nil => exact absurd rfl h
  | cons t rest ih =>
    cases rest with
    | nil => simp [joinSpace]
    | cons t2 rest2 =>
      rw [List.map_cons, List.flatten_cons, ih (by simp)]
      simp [joinSpace, List.append_assoc]

theorem stripped_fullText (rs : List SegRes) :
    pyStrip (fullTextRaw rs) = pyStrip (joinSpace (rs.map SegRes.text)) := by
  cases rs with
  | nil => rfl
  | cons r rest =>
    rw [fullTextRaw_eq_join]
    have hmm : (r :: rest).map (fun x => x.text ++ [32])
        = ((r :: rest).map SegRes.text).map (fun t => t ++ [32]) := by
      simp [List.map_map]
    rw [hmm, join_map_space _ (by simp), pyStrip_append_space]

theorem runUrl_never_succeeds (decode decode2 : Option Nat) (ef : Nat → Bool)
    (http : Nat → HttpOutcome) (d : Int) :
    (runUrl decode decode2 ef http d).body = none ∧
    (runUrl decode decode2 ef http d).status = 500 := by
  simp only [runUrl, from_file]
  cases h : (split_audio decode ef d).result <;> simp [h]

theorem runUpload_body_shape (decode decode2 : Option Nat) (ef : Nat → Bool)
    (http : Nat → HttpOutcome) (d : Int) (body : SuccessBody)
    (h : (runUpload decode decode2 ef http d).body = some body) :
    ∃ segs len2,
      (split_audio decode ef d).result = some segs ∧ decode2 = some len2 ∧
      body = { text := pyStrip (fullTextRaw (buildResults http d segs.length)),
               segments := buildResults http d segs.length,
               durationMs := len2,
               chunk_count := (buildResults http d segs.length).length,
               chunk_duration := d } := by
  simp only [runUpload, from_file, if_true] at h
  cases hs : (split_audio decode ef d).result with
  | none => rw [hs] at h; simp at h
  | some segs =>
    rw [hs] at h
    cases h2 : decode2 with
    | none => rw [h2] at h; simp at h
    | some len2 =>
      rw [h2] at h
      simp only [Option.some.injEq] at h
      exact ⟨segs, len2, rfl, rfl, h.symm⟩

theorem buildResults_length (http : Nat → HttpOutcome) (d : Int) (n : Nat) :
    (buildResults http d n).length = n := by
  simp [buildResults]

theorem pyLower_eq_dot {c : Nat} (h : pyLower c = 46) : c = 46 := by
  unfold pyLower at h
  by_cases hc : 65 ≤ c ∧ c ≤ 90
  · rw [if_pos (by simp [hc.1, hc.2])] at h
    omega
  · rwa [if_neg (by simpa using hc)] at h

theorem pyLower_dot : pyLower 46 = 46 := rfl

theorem g_dot_iff (g : Nat → Nat) (hg : ∀ c, pyLower (g c) = pyLower c)
    (c : Nat) : g c = 46 ↔ c = 46 := by
  constructor
  · intro h
    have h2 := hg c
    rw [h, pyLower_dot] at h2
    exact pyLower_eq_dot h2.symm
  · intro h
    subst h
    have h2 := hg 46
    rw [pyLower_dot] at h2
    exact pyLower_eq_dot h2

theorem takeWhile_dot_decomp (r : Str) (h : 46 ∈ r) :
    r = r.takeWhile (fun c => c != 46) ++ 46 :: (r.dropWhile (fun c => c != 46)).tail ∧
    46 ∉ r.takeWhile (fun c => c != 46) := by
  induction r with
  | nil => simp at h
  | cons c r ih =>
    by_cases hc : c = 46
    · subst hc
      simp [List.takeWhile_cons, List.dropWhile_cons]
    · have h46 : (46 : Nat) ∈ r := by
        rcases List.mem_cons.mp h with h1 | h1
        · exact absurd h1.symm hc
        · exact h1
      obtain ⟨ih1, ih2⟩ := ih h46
      have hb : (c != 46) = true := by simpa using hc
      constructor
      · simp only [List.takeWhile_cons, List.dropWhile_cons, hb, if_true,
          List.cons_append]
        exact congrArg (List.cons c) ih1
      · simp only [List.takeWhile_cons, hb, if_true]
        intro hmem
        rcases List.mem_cons.mp hmem with h1 | h1
        · exact hc h1.symm
        · exact ih2 h1

theorem takeWhile_no_dot (b rest : Str) (hb : 46 ∉ b) :
    (b ++ 46 :: rest).takeWhile (fun c => c != 46) = b := by
  induction b with
  | nil => simp [List.takeWhile_cons]
  | cons c bs ih =>
    have hc : (c != 46) = true := by
      simp only [bne_iff_ne, ne_eq]
      intro hh
      exact hb (by rw [hh]; exact List.mem_cons_self 46 bs)
    simp only [List.cons_append, List.takeWhile_cons, hc, if_true]
    exact congrArg (List.cons c)
      (ih (fun hm => hb (List.mem_cons_of_mem c hm)))

theorem lastExt_append (a b : Str) (hb : 46 ∉ b) : lastExt (a ++ 46 :: b) = b := by
  unfold lastExt
  have h1 : (a ++ 46 :: b).reverse = b.reverse ++ 46 :: a.reverse := by
    simp [List.reverse_append]
  rw [h1, takeWhile_no_dot _ _ (by simpa using hb), List.reverse_reverse]

theorem exists_decomp_of_mem (f : Str) (h : 46 ∈ f) :
    ∃ a, f = a ++ 46 :: lastExt f ∧ 46 ∉ lastExt f := by
  have hr : (46 : Nat) ∈ f.reverse := by simpa using h
  obtain ⟨h1, h2⟩ := takeWhile_dot_decomp f.reverse hr
  refine ⟨((f.reverse.dropWhile (fun c => c != 46)).tail).reverse, ?_, ?_⟩
  · have h3 : f = (f.reverse.takeWhile (fun c => c != 46) ++
        46 :: (f.reverse.dropWhile (fun c => c != 46)).tail).reverse := by
      rw [← h1, List.reverse_reverse]
    conv_lhs => rw [h3]
    simp [lastExt, List.reverse_append]
  · unfold lastExt
    simpa using h2

theorem contains_iff_mem_nat (l : Str) (c : Nat) : l.contains c = true ↔ c ∈ l := by
  rw [List.contains_iff_exists_mem_beq]
  simp

theorem contains_iff_mem_strList (l : List Str) (s : Str) :
    l.contains s = true ↔ s ∈ l := by
  rw [List.contains_iff_exists_mem_beq]
  simp

theorem lastExt_map (g : Nat → Nat) (hg : ∀ c, pyLower (g c) = pyLower c)
    (f : Str) : lastExt (f.map g) = (lastExt f).map g := by
  unfold lastExt
  have h1 : (f.map g).reverse = (f.reverse).map g := by
    simp [List.map_reverse]
  rw [h1, List.takeWhile_map]
  have hpred : ((fun c => c != 46) ∘ g) = (fun c : Nat => c != 46) := by
    funext c
    by_cases hc : c = 46
    · subst hc
      simp [Function.comp, (g_dot_iff g hg 46).mpr rfl]
    · have hgc : g c ≠ 46 := fun hh => hc ((g_dot_iff g hg c).mp hh)
      have e1 : (g c != 46) = true := by simpa using hgc
      have e2 : (c != 46) = true := by simpa using hc
      simp [Function.comp, e1, e2]
  rw [hpred]
  simp [List.map_reverse]

theorem contains_dot_map (g : Nat → Nat) (hg : ∀ c, pyLower (g c) = pyLower c)
    (f : Str) : (f.map g).contains 46 = f.contains 46 := by
  rw [Bool.eq_iff_iff, contains_iff_mem_nat, contains_iff_mem_nat]
  constructor
  · intro hm
    obtain ⟨c, hc, hgc⟩ := List.mem_map.mp hm
    exact ((g_dot_iff g hg c).mp hgc) ▸ hc
  · intro hm
    exact List.mem_map.mpr ⟨46, hm, (g_dot_iff g hg 46).mpr rfl⟩

theorem split_audio_noFail_cases (decode : Option Nat) (ef : Nat → Bool)
    (d : Int) (h : ∀ j, ef j = false) :
    (split_audio decode ef d).written = [] ∨
    (split_audio decode ef d).result.isSome = true := by
  cases decode with
  | none => exact Or.inl rfl
  | some lenMs =>
    cases hr : pyRangeLen lenMs (d * 1000) with
    | none =>
      left
      simp [split_audio, hr]
    | some count =>
      right
      simp [split_audio, hr, splitGo_noFail lenMs (d * 1000).toNat ef h]

theorem runUpload_posNat (L L2 d : Nat) (hd : 0 < d) (http : Nat → HttpOutcome) :
    runUpload (some L) (some L2) exportOk http (d : Int) =
      { status := 200,
        body := some
          { text := pyStrip (fullTextRaw
              (buildResults http d ((L + d * 1000 - 1) / (d * 1000)))),
            segments := buildResults http d ((L + d * 1000 - 1) / (d * 1000)),
            durationMs := L2,
            chunk_count :=
              (buildResults http d ((L + d * 1000 - 1) / (d * 1000))).length,
            chunk_duration := d },
        leakedSegments := [], sourceRemains := false } := by
  have hsp := split_audio_posNat L d hd exportOk (fun _ => rfl)
  simp only [runUpload, from_file, hsp]
  simp [List.length_map, List.length_range]

/- ======================================================================
   Claims
   ====================================================================== -/

/-- C1 (code_bug evidence): on identical oracles — a staged source decoding
to 95000 ms, chunk duration 30, every export succeeding and every
transcription request answering 200 with text "hi" — the upload endpoint
returns the success body, but the URL endpoint returns 500 with no body,
because `transcribe_audio_url` unlinks the staged file (app.py line 284)
before re-decoding it for the total duration (line 287); its success path is
unreachable for every oracle. -/
theorem url_route_unlinks_source_before_duration_decode :
    (runUpload (some 95000) (some 95000) exportOk httpHi 30).status = 200 ∧
    (runUpload (some 95000) (some 95000) exportOk httpHi 30).body = some bodyHi ∧
    (runUrl (some 95000) (some 95000) exportOk httpHi 30).status = 500 ∧
    (runUrl (some 95000) (some 95000) exportOk httpHi 30).body = none ∧
    (∀ (decode decode2 : Option Nat) (ef : Nat → Bool)
       (http : Nat → HttpOutcome) (d : Int),
       (runUrl decode decode2 ef http d).body = none) :=
  ⟨by decide, by decide, by decide, by decide,
   fun decode decode2 ef http d =>
     (runUrl_never_succeeds decode decode2 ef http d).1⟩

/-- C2 counterexample: when `chunk.export` raises on segment index 1 of a
95000 ms source (chunk duration 30), the artifacts already written (ids 0
and 1) are still on disk when the handler returns — the claim that every
temporary segment artifact is deleted on every exit path fails. -/
theorem partial_segmentation_leaks_artifacts :
    (runUpload (some 95000) (some 95000) (fun j => j == 1) httpDown 30).leakedSegments
      = [0, 1] ∧
    ¬ ((runUpload (some 95000) (some 95000) (fun j => j == 1) httpDown 30).leakedSegments
      = []) := by
  decide

/-- C2 (amended): whenever segmentation does not fail partway through its
export loop — so on success, on per-segment transcription failure, on a
decode failure (which precedes every artifact write), and on a failure
during final duration computation — both endpoints leave no temporary
segment artifact behind. -/
theorem artifacts_cleaned_when_segmentation_completes
    (decode decode2 : Option Nat) (ef : Nat → Bool) (http : Nat → HttpOutcome)
    (d : Int) (h : ∀ j, ef j = false) :
    (runUpload decode decode2 ef http d).leakedSegments = [] ∧
    (runUrl decode decode2 ef http d).leakedSegments = [] := by
  rcases split_audio_noFail_cases decode ef d h with hw | hsome
  · constructor
    · simp only [runUpload, from_file]
      cases hs : (split_audio decode ef d).result
      · exact hw
      · cases decode2 <;> simp
    · simp only [runUrl, from_file]
      cases hs : (split_audio decode ef d).result
      · exact hw
      · simp
  · obtain ⟨segs, hs⟩ := Option.isSome_iff_exists.mp hsome
    constructor
    · simp only [runUpload, from_file]
      rw [hs]
      cases decode2 <;> simp
    · simp only [runUrl, from_file]
      rw [hs]
      simp

/-- Witness for the amended C2 theorem at a concrete input. -/
theorem artifacts_cleaned_witness :
    (∀ j : Nat, exportOk j = false) ∧
    ((runUpload (some 95000) (some 95000) exportOk httpDown 30).leakedSegments = [] ∧
     (runUrl (some 95000) (some 95000) exportOk httpDown 30).leakedSegments = []) :=
  ⟨fun _ => rfl,
   artifacts_cleaned_when_segmentation_completes (some 95000) (some 95000)
     exportOk httpDown 30 (fun _ => rfl)⟩

/-- C5: `transcribe_chunk` returns the `text` field on HTTP 200 (empty when
the field is absent) and returns the empty string — rather than raising — on
any non-200 status, on timeout, and on any network-level failure. -/
theorem transcribe_chunk_contract :
    (∀ tf : Option Str, transcribe_chunk (.response 200 tf true) = tf.getD []) ∧
    transcribe_chunk (.response 200 none true) = [] ∧
    (∀ (s : Nat) (tf : Option Str) (j : Bool), s ≠ 200 →
      transcribe_chunk (.response s tf j) = []) ∧
    transcribe_chunk .timeout = [] ∧
    transcribe_chunk .netError = [] := by
  refine ⟨fun tf => rfl, rfl, fun s tf j hs => ?_, rfl, rfl⟩
  simp [transcribe_chunk, hs]

/-- Witness for the C5 theorem at a concrete non-200 status. -/
theorem transcribe_chunk_contract_witness :
    (404 : Nat) ≠ 200 ∧
    transcribe_chunk (.response 404 (some [104, 105]) true) = [] :=
  ⟨by decide, transcribe_chunk_contract.2.2.1 404 (some [104, 105]) true (by decide)⟩

/-- C8 counterexample: an upload request with a valid file (`a.wav`) but
chunk duration `"abc"` — which `int()` cannot convert — is answered with
status 500 (the outer blanket handler), not a 4xx status. -/
theorem bad_chunk_duration_gives_500_not_4xx :
    (transcribe_audio_route badChunkReq (some 95000) (some 95000) exportOk
        httpDown).1 = 500 ∧
    ¬ (400 ≤ (transcribe_audio_route badChunkReq (some 95000) (some 95000)
          exportOk httpDown).1 ∧
       (transcribe_audio_route badChunkReq (some 95000) (some 95000) exportOk
          httpDown).1 ≤ 499) := by
  decide

/-- C8 (amended): a missing file, an empty file name, a disallowed extension
and a missing URL are each rejected with status 400; a chunk-duration value
that `int()` cannot convert is surfaced as a 500 error response by the outer
handler of either endpoint.  All of these responses are computed without
consulting the pipeline oracles (decode, export, HTTP), so no transcription
request is issued and nothing is retried. -/
theorem boundary_validation_statuses
    (decode decode2 : Option Nat) (ef : Nat → Bool) (http : Nat → HttpOutcome) :
    (∀ name raw,
      transcribe_audio_route ⟨false, name, raw⟩ decode decode2 ef http = (400, none)) ∧
    (∀ raw,
      transcribe_audio_route ⟨true, [], raw⟩ decode decode2 ef http = (400, none)) ∧
    (∀ name raw, allowed_file name = false →
      transcribe_audio_route ⟨true, name, raw⟩ decode decode2 ef http = (400, none)) ∧
    (∀ name raw, allowed_file name = true → pyInt raw = none →
      transcribe_audio_route ⟨true, name, some raw⟩ decode decode2 ef http = (500, none)) ∧
    (∀ raw,
      transcribe_url_route ⟨false, raw⟩ decode decode2 ef http = (400, none)) ∧
    (∀ raw, pyInt raw = none →
      transcribe_url_route ⟨true, some raw⟩ decode decode2 ef http = (500, none)) := by
  refine ⟨fun name raw => rfl, fun raw => by simp [transcribe_audio_route],
    fun name raw hn => ?_, fun name raw ha hi => ?_, fun raw => rfl,
    fun raw hi => by simp [transcribe_url_route, hi]⟩
  · by_cases hname : name = []
    · simp [transcribe_audio_route, hname]
    · simp [transcribe_audio_route, hname, hn]
  · have hne : name ≠ [] := by
      intro h0
      rw [h0] at ha
      exact absurd ha (by decide)
    simp [transcribe_audio_route, hne, ha, hi]

/-- Witness for the amended C8 theorem at a concrete input. -/
theorem boundary_validation_witness :
    allowed_file [97, 46, 119, 97, 118] = true ∧
    pyInt [97, 98, 99] = none ∧
    transcribe_audio_route ⟨true, [97, 46, 119, 97, 118], some [97, 98, 99]⟩
      (some 95000) (some 95000) exportOk httpDown = (500, none) :=
  ⟨by decide, by decide,
   (boundary_validation_statuses (some 95000) (some 95000) exportOk
       httpDown).2.2.2.1 [97, 46, 119, 97, 118] [97, 98, 99]
     (by decide) (by decide)⟩

/-- C10: for a strictly negative chunk duration the loop range is empty, so
`split_audio` returns the empty list without raising, the upload pipeline
returns the success shape with zero segments, chunk_count 0 and empty text,
and the outcome does not depend on the HTTP oracle (no transcription request
is issued). -/
theorem negative_chunk_duration_empty_run
    (L L2 : Nat) (ef : Nat → Bool) (http htt2 : Nat → HttpOutcome) (d : Int)
    (hd : d < 0) :
    split_audio (some L) ef d = ⟨[], some []⟩ ∧
    runUpload (some L) (some L2) ef http d =
      { status := 200,
        body := some { text := [], segments := [], durationMs := L2,
                       chunk_count := 0, chunk_duration := d },
        leakedSegments := [], sourceRemains := false } ∧
    runUpload (some L) (some L2) ef http d =
      runUpload (some L) (some L2) ef htt2 d := by
  have hneg : d * 1000 < 0 := mul_neg_of_neg_of_pos hd (by norm_num)
  have hsplit : split_audio (some L) ef d = ⟨[], some []⟩ := by
    simp only [split_audio, pyRangeLen, if_neg hneg.ne, if_pos hneg]
    rfl
  refine ⟨hsplit, ?_, ?_⟩
  · simp only [runUpload, from_file, hsplit]
    simp [buildResults, fullTextRaw, pyStrip]
  · simp only [runUpload, from_file, hsplit]
    simp [buildResults, fullTextRaw, pyStrip]

/-- Witness for the C10 theorem at a concrete negative chunk duration. -/
theorem negative_chunk_duration_witness :
    (-5 : Int) < 0 ∧
    (split_audio (some 95000) exportOk (-5) = ⟨[], some []⟩ ∧
     runUpload (some 95000) (some 95000) exportOk httpHi (-5) =
       { status := 200,
         body := some { text := [], segments := [], durationMs := 95000,
                        chunk_count := 0, chunk_duration := -5 },
         leakedSegments := [], sourceRemains := false } ∧
     runUpload (some 95000) (some 95000) exportOk httpHi (-5) =
       runUpload (some 95000) (some 95000) exportOk httpDown (-5)) :=
  ⟨by decide,
   negative_chunk_duration_empty_run 95000 95000 exportOk httpHi httpDown (-5)
     (by decide)⟩

/-- C3: for every positive chunk duration `d` (seconds) and every decodable
source of `lenMs` milliseconds (duration `D = lenMs / 1000` seconds),
`split_audio` returns `ceil(D / d)` segments covering windows of `d * 1000`
ms in ascending chronological order; every non-final segment has content
length exactly `d * 1000` ms, and every segment (in particular the final
one) has content length at most `d * 1000` ms, the tail being neither padded
nor dropped (its length is exactly the remaining audio). -/
theorem split_audio_segment_count_and_windows (lenMs d : Nat) (hd : 0 < d) :
    ∃ segs : List Segment,
      (split_audio (some lenMs) exportOk (d : Int)).result = some segs ∧
      segs.length = (lenMs + d * 1000 - 1) / (d * 1000) ∧
      ⌈(lenMs : ℚ) / 1000 / (d : ℚ)⌉ = (segs.length : ℤ) ∧
      (∀ i : Fin segs.length, (segs.get i).startMs = i.1 * (d * 1000)) ∧
      (∀ i : Fin segs.length,
        (segs.get i).lenMs = min (d * 1000) (lenMs - i.1 * (d * 1000))) ∧
      (∀ i : Fin segs.length, i.1 + 1 < segs.length →
        (segs.get i).lenMs = d * 1000) ∧
      (∀ i : Fin segs.length, (segs.get i).lenMs ≤ d * 1000) ∧
      List.Pairwise (fun a b => a.startMs < b.startMs) segs := by
  have hsp := split_audio_posNat lenMs d hd exportOk (fun _ => rfl)
  have hM : 0 < d * 1000 := by positivity
  refine ⟨(List.range ((lenMs + d * 1000 - 1) / (d * 1000))).map
      (fun j => ⟨j, j * (d * 1000), min (d * 1000) (lenMs - j * (d * 1000))⟩),
    by rw [hsp], by simp, ?_, ?_, ?_, ?_, ?_, ?_⟩
  · have hcc := ceil_eq_count lenMs (d * 1000) hM
    have hx : (lenMs : ℚ) / 1000 / (d : ℚ)
        = (lenMs : ℚ) / ((d * 1000 : Nat) : ℚ) := by
      push_cast
      rw [div_div]
      ring_nf
    rw [hx, hcc]
    simp
  · intro i
    simp [List.get_eq_getElem, List.getElem_map, List.getElem_range]
  · intro i
    simp [List.get_eq_getElem, List.getElem_map, List.getElem_range]
  · intro i hi
    simp only [List.length_map, List.length_range] at hi
    simp only [List.get_eq_getElem, List.getElem_map, List.getElem_range]
    exact window_full lenMs (d * 1000) _ i.1 hM rfl hi
  · intro i
    simp only [List.get_eq_getElem, List.getElem_map, List.getElem_range]
    exact min_le_left _ _
  · rw [List.pairwise_iff_get]
    intro i j hij
    simp only [List.get_eq_getElem, List.getElem_map, List.getElem_range]
    exact Nat.mul_lt_mul_of_pos_right hij hM

/-- Witness for the C3 theorem: a 95000 ms source with chunk duration 30. -/
theorem split_audio_count_witness :
    (0 : Nat) < 30 ∧
    ∃ segs : List Segment,
      (split_audio (some 95000) exportOk ((30 : Nat) : Int)).result = some segs ∧
      segs.length = (95000 + 30 * 1000 - 1) / (30 * 1000) ∧
      ⌈((95000 : Nat) : ℚ) / 1000 / ((30 : Nat) : ℚ)⌉ = (segs.length : ℤ) ∧
      (∀ i : Fin segs.length, (segs.get i).startMs = i.1 * (30 * 1000)) ∧
      (∀ i : Fin segs.length,
        (segs.get i).lenMs = min (30 * 1000) (95000 - i.1 * (30 * 1000))) ∧
      (∀ i : Fin segs.length, i.1 + 1 < segs.length →
        (segs.get i).lenMs = 30 * 1000) ∧
      (∀ i : Fin segs.length, (segs.get i).lenMs ≤ 30 * 1000) ∧
      List.Pairwise (fun a b => a.startMs < b.startMs) segs :=
  ⟨by decide, split_audio_segment_count_and_windows 95000 30 (by decide)⟩

/-- C4: for every run of either endpoint that produces a success body, the
`text` field equals the segment texts joined in index order with a single
space and stripped of leading/trailing whitespace. -/
theorem success_text_is_space_joined_trimmed
    (decode decode2 : Option Nat) (ef : Nat → Bool) (http : Nat → HttpOutcome)
    (d : Int) (body : SuccessBody) :
    ((runUpload decode decode2 ef http d).body = some body →
      body.text = pyStrip (joinSpace (body.segments.map SegRes.text))) ∧
    ((runUrl decode decode2 ef http d).body = some body →
      body.text = pyStrip (joinSpace (body.segments.map SegRes.text))) := by
  constructor
  · intro h
    obtain ⟨segs, len2, hsp, hd2, hb⟩ :=
      runUpload_body_shape decode decode2 ef http d body h
    subst hb
    exact stripped_fullText _
  · intro h
    rw [(runUrl_never_succeeds decode decode2 ef http d).1] at h
    exact absurd h (by simp)

/-- Witness for the C4 theorem at a concrete successful upload run. -/
theorem success_text_witness :
    (runUpload (some 95000) (some 95000) exportOk httpHi 30).body = some bodyHi ∧
    bodyHi.text = pyStrip (joinSpace (bodyHi.segments.map SegRes.text)) :=
  ⟨by decide,
   (success_text_is_space_joined_trimmed (some 95000) (some 95000) exportOk
       httpHi 30 bodyHi).1 (by decide)⟩

/-- C6: if the transcription call fails on segment `k` (returning empty
text) and behaves identically to another oracle everywhere else, the run
still returns the 200 success shape, the segment result at index `k` has
empty text, and the segment results at all other indices are identical to
the comparison run's. -/
theorem single_segment_failure_is_isolated
    (L L2 d : Nat) (hd : 0 < d) (f g : Nat → HttpOutcome) (k : Nat)
    (hfail : transcribe_chunk (f k) = [])
    (hagree : ∀ j, j ≠ k → f j = g j) :
    (runUpload (some L) (some L2) exportOk f (d : Int)).status = 200 ∧
    ∃ bf bg : SuccessBody,
      (runUpload (some L) (some L2) exportOk f (d : Int)).body = some bf ∧
      (runUpload (some L) (some L2) exportOk g (d : Int)).body = some bg ∧
      bf.segments.length = bg.segments.length ∧
      (∀ i : Fin bf.segments.length, i.1 ≠ k →
        ∀ hj : i.1 < bg.segments.length,
          bf.segments.get i = bg.segments.get ⟨i.1, hj⟩) ∧
      (∀ hk : k < bf.segments.length, (bf.segments.get ⟨k, hk⟩).text = []) := by
  rw [runUpload_posNat L L2 d hd f, runUpload_posNat L L2 d hd g]
  refine ⟨rfl, _, _, rfl, rfl, by simp [buildResults], ?_, ?_⟩
  · intro i hne hj
    have hfg := hagree i.1 hne
    simp [buildResults, List.get_eq_getElem, List.getElem_map,
      List.getElem_range, hfg]
  · intro hk
    simp [buildResults, List.get_eq_getElem, List.getElem_map,
      List.getElem_range, hfail]

/-- Witness for the C6 theorem: a 95000 ms upload with chunk 30 where the
endpoint times out exactly on segment index 1. -/
theorem single_segment_failure_witness :
    transcribe_chunk (httpFailAt1 1) = [] ∧
    ((runUpload (some 95000) (some 95000) exportOk httpFailAt1 ((30 : Nat) : Int)).status = 200 ∧
     ∃ bf bg : SuccessBody,
       (runUpload (some 95000) (some 95000) exportOk httpFailAt1 ((30 : Nat) : Int)).body = some bf ∧
       (runUpload (some 95000) (some 95000) exportOk httpHi ((30 : Nat) : Int)).body = some bg ∧
       bf.segments.length = bg.segments.length ∧
       (∀ i : Fin bf.segments.length, i.1 ≠ 1 →
         ∀ hj : i.1 < bg.segments.length,
           bf.segments.get i = bg.segments.get ⟨i.1, hj⟩) ∧
       (∀ hk : 1 < bf.segments.length, (bf.segments.get ⟨1, hk⟩).text = [])) :=
  ⟨by decide,
   single_segment_failure_is_isolated 95000 95000 30 (by decide) httpFailAt1
     httpHi 1 (by decide)
     (fun j hj => by
       have hb : (j == 1) = false := by simpa using hj
       simp [httpFailAt1, httpHi, hb])⟩

/-- C7: segment results carry 1-based ids in strictly ascending index order
with `start_time = i * chunk_duration` and
`end_time = (i + 1) * chunk_duration`; in particular a 95-second audio with
chunk duration 30 yields 4 segments with start/end pairs (0,30), (30,60),
(60,90), (90,120). -/
theorem segment_results_ids_and_times :
    (∀ (L L2 d : Nat) (http : Nat → HttpOutcome), 0 < d →
      ∃ body : SuccessBody,
        (runUpload (some L) (some L2) exportOk http (d : Int)).body = some body ∧
        body.segments.length = (L + d * 1000 - 1) / (d * 1000) ∧
        (∀ i : Fin body.segments.length,
          (body.segments.get i).segment_id = i.1 + 1) ∧
        (∀ i : Fin body.segments.length,
          (body.segments.get i).start_time = (i.1 : Int) * (d : Int) ∧
          (body.segments.get i).end_time = ((i.1 : Int) + 1) * (d : Int)) ∧
        List.Pairwise (fun a b => a.segment_id < b.segment_id) body.segments) ∧
    (runUpload (some 95000) (some 95000) exportOk httpDown 30).body =
      some { text := [],
             segments := [⟨1, [], 0, 30⟩, ⟨2, [], 30, 60⟩,
                          ⟨3, [], 60, 90⟩, ⟨4, [], 90, 120⟩],
             durationMs := 95000, chunk_count := 4, chunk_duration := 30 } := by
  constructor
  · intro L L2 d http hd
    rw [runUpload_posNat L L2 d hd http]
    refine ⟨_, rfl, by simp [buildResults], ?_, ?_, ?_⟩
    · intro i
      simp [buildResults, List.get_eq_getElem, List.getElem_map,
        List.getElem_range]
    · intro i
      constructor <;>
        simp [buildResults, List.get_eq_getElem, List.getElem_map,
          List.getElem_range]
    · rw [List.pairwise_iff_get]
      intro i j hij
      simp only [buildResults, List.get_eq_getElem, List.getElem_map,
        List.getElem_range]
      exact Nat.succ_lt_succ hij
  · decide

/-- Witness for the universally quantified part of the C7 theorem. -/
theorem segment_results_witness :
    (0 : Nat) < 30 ∧
    ∃ body : SuccessBody,
      (runUpload (some 95000) (some 95000) exportOk httpHi ((30 : Nat) : Int)).body = some body ∧
      body.segments.length = (95000 + 30 * 1000 - 1) / (30 * 1000) ∧
      (∀ i : Fin body.segments.length,
        (body.segments.get i).segment_id = i.1 + 1) ∧
      (∀ i : Fin body.segments.length,
        (body.segments.get i).start_time = (i.1 : Int) * ((30 : Nat) : Int) ∧
        (body.segments.get i).end_time = ((i.1 : Int) + 1) * ((30 : Nat) : Int)) ∧
      List.Pairwise (fun a b => a.segment_id < b.segment_id) body.segments :=
  ⟨by decide, segment_results_ids_and_times.1 95000 95000 30 httpHi (by decide)⟩

/-- C9: a file name passes `allowed_file` exactly when it contains a dot and
the lowercased part after the last dot is in the allow-list; in particular a
name with no dot is rejected, and the check only depends on the lowercasing
of the name (case-insensitive extension matching). -/
theorem allowed_file_characterization (f : Str) :
    (allowed_file f = true ↔
      ∃ a b : Str, f = a ++ 46 :: b ∧ 46 ∉ b ∧
        (b.map pyLower) ∈ allowedExtensions) ∧
    (46 ∉ f → allowed_file f = false) ∧
    (∀ g : Nat → Nat, (∀ c, pyLower (g c) = pyLower c) →
      allowed_file (f.map g) = allowed_file f) := by
  refine ⟨⟨?_, ?_⟩, ?_, ?_⟩
  · intro h
    unfold allowed_file at h
    rw [Bool.and_eq_true] at h
    obtain ⟨h1, h2⟩ := h
    have hm : (46 : Nat) ∈ f := (contains_iff_mem_nat f 46).mp h1
    obtain ⟨a, hfa, hnb⟩ := exists_decomp_of_mem f hm
    exact ⟨a, lastExt f, hfa, hnb, (contains_iff_mem_strList _ _).mp h2⟩
  · rintro ⟨a, b, rfl, hnb, hmem⟩
    unfold allowed_file
    rw [Bool.and_eq_true]
    refine ⟨?_, ?_⟩
    · exact (contains_iff_mem_nat _ _).mpr (by simp)
    · rw [lastExt_append a b hnb]
      exact (contains_iff_mem_strList _ _).mpr hmem
  · intro hnot
    unfold allowed_file
    have hc : f.contains 46 = false := by
      cases hcc : f.contains 46
      · rfl
      · exact absurd ((contains_iff_mem_nat f 46).mp hcc) hnot
    rw [hc, Bool.false_and]
  · intro g hg
    unfold allowed_file
    have hcongr : (lastExt f).map (pyLower ∘ g) = (lastExt f).map pyLower :=
      List.map_congr_left (fun c _ => hg c)
    rw [contains_dot_map g hg f, lastExt_map g hg f, List.map_map, hcongr]

/-- Witness for the C9 theorem: the dotless name `nodot` is rejected. -/
theorem allowed_file_witness :
    (46 : Nat) ∉ ([110, 111, 100, 111, 116] : Str) ∧
    allowed_file [110, 111, 100, 111, 116] = false :=
  ⟨by decide,
   (allowed_file_characterization [110, 111, 100, 111, 116]).2.1 (by decide)⟩
